import Mathlib

/-!
Verification of the download-orchestration core of the TikTok bulk downloader.

Shallow embedding of `src/app.py`: the filename sanitizer, the in-memory
download helpers, the session state, the zip-assembly routine `prepare_zip`,
the selection callbacks, and the artifact-validity check that `run_app_1`
(and apps 2/3, identically) performs at the top of every rerun.

External effects (yt-dlp downloads) are modelled by an explicit parameter
`dl : Video → Option (List Nat × String)` giving, per video, the payload
bytes and the extension of the file yt-dlp produced, or `none` when the
download raised an exception or produced no file.
-/

/-- One entry of `st.session_state.video_list`: the yt-dlp metadata dict.
Only the fields the modelled code reads are kept; the dict keys are assumed
present (the `.get(..., default)` fallbacks for absent keys are not
exercised by any modelled run). -/
structure Video where
  id : String
  title : String
  uploader : String
  webpage_url : String
deriving DecidableEq

/-- Result of `robust_download_to_memory`: `some (video_bytes, filename)` or
the `(None, None)` failure, collapsed to `none`. -/
abbrev DlResult := Option (List Nat × String)

/-- One member written into the zip archive by `zip_file.writestr(filename, video_bytes)`. -/
structure ZipEntry where
  name : String
  data : List Nat
deriving DecidableEq

/-- The `@st.cache_data` store backing `get_cached_download_data`, keyed on the
whole argument (structural equality of the metadata record). -/
abbrev Cache := List (Video × DlResult)

/-- The slice of `st.session_state` the modelled code touches, plus the
`st.cache_data` store. `toggles` is the per-video checkbox state stored under
`st.session_state[video['id']]`. -/
structure AppState where
  video_list : List Video
  toggles : String → Bool
  zip_bytes : Option (List ZipEntry)
  zipped_selection_ids : List String
  zip_filename : Option String
  failed_videos : List Video
  download_triggered : Bool
  cache : Cache

/-! ## Filename sanitization (`sanitize_filename`, src/app.py lines 20-27) -/

/-- Characters matched by Python's `[\s\n\r]` character class on the ASCII
range (the regex runs in unicode mode; non-ASCII whitespace is outside the
scope of the modelled inputs). -/
def pyIsSpace (c : Char) : Bool :=
  c == ' ' || c == '\t' || c == '\n' || c == '\r' || c == Char.ofNat 11 || c == Char.ofNat 12

/-- The characters removed by `re.sub(r'[\\/*?:"<>|]', "", ...)`. -/
def illegalChars : List Char := ['\\', '/', '*', '?', ':', '"', '<', '>', '|']

/-- `re.sub(r'[\s\n\r]+', '_', s)`, read as a left-to-right scan: the flag
records whether the scanner is inside a whitespace run; the first character of
each run emits the single `'_'`, the rest of the run emits nothing. -/
def collapseWs : Bool → List Char → List Char
  | _, [] => []
  | inRun, c :: cs =>
    if pyIsSpace c then
      if inRun then collapseWs true cs else '_' :: collapseWs true cs
    else c :: collapseWs false cs

/-- `re.sub(r'[\\/*?:"<>|]', "", s)`. -/
def stripIllegal (l : List Char) : List Char :=
  l.filter (fun c => !(illegalChars.contains c))

/-- `(s[:100] + '..') if len(s) > 100 else s`. -/
def truncate100 (l : List Char) : List Char :=
  if l.length > 100 then l.take 100 ++ ['.', '.'] else l

/-- `sanitize_filename` (src/app.py lines 20-27). The `Option` input models
the Python distinction between an absent (`None`) and a present string value;
`if not name` sends both `None` and `""` to the placeholder. -/
def sanitize_filename (name : Option String) : String :=
  match name with
  | none => "untitled_video"
  | some s =>
    if s.isEmpty then "untitled_video"
    else String.mk (truncate100 (stripIllegal (collapseWs false s.data)))

example : sanitize_filename (some "Jane Doe") = "Jane_Doe" := by decide
example : sanitize_filename (some "My Cool Video!!") = "My_Cool_Video!!" := by decide
example : sanitize_filename (some "???") = "" := by decide
example : sanitize_filename (some "") = "untitled_video" := by decide
example : sanitize_filename none = "untitled_video" := by decide

/-! ## Download helpers (src/app.py lines 96-133) -/

/-- `robust_download_to_memory` (src/app.py lines 96-128). The yt-dlp call
and the temp-file round trip are summarized by `dl v`: `some (payload, ext)`
when yt-dlp left a file `<id>.<ext>` holding `payload` in the temp dir,
`none` when the download raised or the temp dir stayed empty. On success the
function returns the payload together with
`f"{sanitize_filename(uploader)}_{sanitize_filename(title)}.mp4"` — the
suffix is the literal `".mp4"` from line 105; the extension of the file
actually downloaded (`_ext`) is not consulted for the name. -/
def robust_download_to_memory (dl : Video → Option (List Nat × String))
    (v : Video) : DlResult :=
  match dl v with
  | none => none
  | some (payload, _ext) =>
    some (payload,
      sanitize_filename (some v.uploader) ++ "_" ++ sanitize_filename (some v.title) ++ ".mp4")

/-- Python truthiness of the pair returned by `robust_download_to_memory`,
as tested by `if video_bytes and filename:` — both components non-empty. -/
def dl_success : DlResult → Bool
  | none => false
  | some (b, f) => !b.isEmpty && !f.isEmpty

/-- Lookup in the `st.cache_data` store: first entry whose key equals the
queried metadata record. -/
def cacheLookup (cache : Cache) (v : Video) : Option DlResult :=
  (cache.find? (fun p => p.1 == v)).map (·.2)

/-- `get_cached_download_data` (src/app.py lines 131-133): the
`@st.cache_data` wrapper around `robust_download_to_memory`. Returns the
fetch result, the cache after the call, and the number of invocations of the
underlying `robust_download_to_memory` this call performed (0 on a hit,
1 on a miss). -/
def get_cached_download_data (dl : Video → Option (List Nat × String))
    (cache : Cache) (v : Video) : DlResult × Cache × Nat :=
  match cacheLookup cache v with
  | some r => (r, cache, 0)
  | none =>
    (robust_download_to_memory dl v,
     cache ++ [(v, robust_download_to_memory dl v)], 1)

/-! ## Selection state and zip assembly (src/app.py lines 186-236, 261-264) -/

/-- `invalidate_zip` (src/app.py lines 194-197). -/
def invalidate_zip (s : AppState) : AppState :=
  { s with zip_bytes := none, zipped_selection_ids := [] }

/-- Flipping one video's selection toggle (the `st.toggle(..., key=video['id'])`
widget writing `st.session_state[video['id']]`). -/
def toggleVideo (c : String) (s : AppState) : AppState :=
  { s with toggles := fun x => if x = c then !s.toggles x else s.toggles x }

/-- `toggle_all_selection` (src/app.py lines 186-192): sets every listed
video's toggle to the select-all checkbox value, then calls `invalidate_zip`. -/
def toggle_all_selection (new_state : Bool) (s : AppState) : AppState :=
  invalidate_zip
    { s with toggles := fun x =>
        if (s.video_list.map (fun v => v.id)).contains x then new_state else s.toggles x }

/-- Clicking "Clear Download Cache" (src/app.py line 481-483): `st.cache_data.clear()`. -/
def clear_download_cache (s : AppState) : AppState :=
  { s with cache := [] }

/-- `selected_videos = [v for v in st.session_state.video_list if st.session_state.get(v['id'])]`. -/
def selectedVideos (s : AppState) : List Video :=
  s.video_list.filter (fun v => s.toggles v.id)

/-- `selected_ids = {v['id'] for v in video_list if st.session_state.get(v['id'])}`. -/
def selectedIds (s : AppState) : Finset String :=
  ((selectedVideos s).map (fun v => v.id)).toFinset

/-- `set(st.session_state.zipped_selection_ids)`. -/
def recordedIds (s : AppState) : Finset String :=
  s.zipped_selection_ids.toFinset

/-- Python truthiness of `st.session_state.zip_bytes`: `None` is falsy; stored
bytes are always truthy because a closed zip stream is never empty (it ends in
the 22-byte end-of-central-directory record, see `zipBufferTell`). -/
def zipTruthy (o : Option (List ZipEntry)) : Bool := o.isSome

/-- The archive is offered for download exactly when
`if st.session_state.zip_bytes:` holds in `common_action_bar_ui` (line 171). -/
def zipOffered (s : AppState) : Bool := zipTruthy s.zip_bytes

/-- Size contribution of one `writestr` call to the zip stream: 30-byte local
file header, the name, and the stored data (the deflated size differs, but
only positivity of the total is ever used). -/
def zipEntrySize (e : ZipEntry) : Nat := 30 + e.name.length + e.data.length

/-- `zip_buffer.tell()` at line 230, after the `with zipfile.ZipFile(...)`
block has closed. CPython's `ZipFile.__init__` in mode `"a"` on a stream that
is not a zip file sets `_didModify = True` ("set the modified flag so central
directory gets written even if no files are added to the archive"), so
`close()` always appends the 22-byte end-of-central-directory record: the
buffer position is 22 even when no entry was written. -/
def zipBufferTell (entries : List ZipEntry) : Nat :=
  (entries.map zipEntrySize).sum + 22

/-- The body of one iteration of the `prepare_zip` loop: the entry that
`zip_file.writestr(filename, video_bytes)` adds for one video, or `none` when
`if video_bytes and filename:` is falsy. -/
def zipEntryOf (dl : Video → Option (List Nat × String)) (v : Video) : Option ZipEntry :=
  match robust_download_to_memory dl v with
  | some (b, f) => if !b.isEmpty && !f.isEmpty then some ⟨f, b⟩ else none
  | none => none

/-- `prepare_zip` (src/app.py lines 199-236). The per-video loop writes one
entry per truthy download and appends the others to this run's failure list;
afterwards the ledger is replaced wholesale, and the `tell() > 0` test decides
between publishing the artifact (bytes, the ids of the videos *not* in this
run's failure list, and the archive name) and invalidating. -/
def prepare_zip (dl : Video → Option (List Nat × String))
    (selected_videos : List Video) (user_id : String) (s : AppState) : AppState :=
  if selected_videos.isEmpty then s
  else
    let entries : List ZipEntry := selected_videos.filterMap (zipEntryOf dl)
    let failed_videos_this_run : List Video :=
      selected_videos.filter (fun v => !dl_success (robust_download_to_memory dl v))
    let s1 := { s with failed_videos := failed_videos_this_run }
    if zipBufferTell entries > 0 then
      { s1 with
        zip_bytes := some entries,
        zipped_selection_ids :=
          (selected_videos.filter (fun v => decide (v ∉ failed_videos_this_run))).map
            (fun v => v.id),
        zip_filename := some ("tiktok_download_" ++ user_id ++ ".zip") }
    else invalidate_zip s1

/-- The artifact-validity check at the top of `run_app_1` (src/app.py lines
261-264; apps 2 and 3 repeat it verbatim): unless a download was just
triggered, compare the current selection with the recorded zipped ids and
invalidate on divergence. -/
def run_app_1_check (s : AppState) : AppState :=
  if s.download_triggered then s
  else if zipTruthy s.zip_bytes = true ∧ selectedIds s ≠ recordedIds s then
    invalidate_zip s
  else s

/-- One rerun of `run_app_1`'s action path: the validity check (lines
261-264), then — when the "Prepare ... for ZIP" button was clicked —
`prepare_zip(selected_videos, user_id)` (line 167-168), after which
`common_action_bar_ui` offers the archive whenever `zip_bytes` is truthy. -/
def run_app_1_rerun (dl : Video → Option (List Nat × String))
    (prepare_clicked : Bool) (user_id : String) (s : AppState) : AppState :=
  let s1 := run_app_1_check s
  if prepare_clicked then prepare_zip dl (selectedVideos s1) user_id s1 else s1

/-- `initialize_session_state` (src/app.py lines 140-150): the session-state
defaults, with an empty cache store. -/
def initialize_session_state : AppState :=
  { video_list := []
    toggles := fun _ => false
    zip_bytes := none
    zipped_selection_ids := []
    zip_filename := none
    failed_videos := []
    download_triggered := false
    cache := [] }

/-! ## Concrete fixtures used by the witnesses and counterexamples -/

def vA : Video := ⟨"a", "Title A", "Jane Doe", "urlA"⟩

def vB : Video := ⟨"b", "Title B", "Jane Doe", "urlB"⟩

def vC : Video := ⟨"c", "Title C", "Jane Doe", "urlC"⟩

/-- A download environment in which every video succeeds except id `"b"`. -/
def dlNoB (v : Video) : Option (List Nat × String) :=
  if v.id = "b" then none else some ([1], "mp4")

/-- A download environment in which every download fails. -/
def dlFail (_ : Video) : Option (List Nat × String) := none

/-- Session state holding videos `A, B, C` with `A` and `B` toggled on and an
artifact recorded from `{a, b}`. -/
def sAB : AppState :=
  { initialize_session_state with
    video_list := [vA, vB, vC]
    toggles := fun x => x == "a" || x == "b"
    zip_bytes := some [⟨"Jane_Doe_Title_A.mp4", [1]⟩, ⟨"Jane_Doe_Title_B.mp4", [1]⟩]
    zipped_selection_ids := ["a", "b"]
    zip_filename := some "tiktok_download_u.zip" }

example : (prepare_zip dlNoB [vA, vB] "u" initialize_session_state).zipped_selection_ids
    = ["a"] := by decide
example : (prepare_zip dlNoB [vA, vB] "u" initialize_session_state).failed_videos
    = [vB] := by decide
example : (prepare_zip dlNoB [vA, vB] "u" initialize_session_state).zip_bytes
    = some [⟨"Jane_Doe_Title_A.mp4", [1]⟩] := by decide
example : (prepare_zip dlFail [vA] "u" initialize_session_state).zip_bytes
    = some [] := by decide
example : selectedIds sAB = {"a", "b"} := by decide
example : zipOffered (run_app_1_check sAB) = true := by decide
example : (run_app_1_check (toggleVideo "c" sAB)).zip_bytes = none := by decide

/-! ## The filename rule as the spec states it (§6), for the C5 refinement -/

lemma dropWhile_length_le (p : Char → Bool) (l : List Char) :
    (l.dropWhile p).length ≤ l.length := by
  induction l with
  | nil => simp [List.dropWhile]
  | cons c cs ih =>
    by_cases h : p c
    · simp only [List.dropWhile, h, List.length_cons]
      omega
    · simp [List.dropWhile, h]

/-- The spec's whitespace rule, taken at its word: a (maximal) run of
whitespace is replaced by a single underscore, so on meeting whitespace we
emit one `'_'` and skip the remainder of the run. -/
def specCollapseRuns : List Char → List Char
  | [] => []
  | c :: cs =>
    if pyIsSpace c then '_' :: specCollapseRuns (cs.dropWhile pyIsSpace)
    else c :: specCollapseRuns cs
termination_by l => l.length
decreasing_by
  all_goals simp only [List.length_cons]
  · exact Nat.lt_succ_of_le (dropWhile_length_le pyIsSpace cs)
  · omega

/-- The filename sanitization rule as §6 of the spec words it: replace runs
of whitespace with a single underscore, strip the nine forbidden characters,
and truncate to 100 characters followed by the two-character ellipsis marker
if longer; an empty or absent input yields the fixed placeholder. -/
def sanitizeSpec (name : Option String) : String :=
  match name with
  | none => "untitled_video"
  | some s =>
    if s = "" then "untitled_video"
    else
      let collapsed := specCollapseRuns s.data
      let stripped := collapsed.filter (fun c => decide (c ∉ illegalChars))
      if stripped.length > 100 then String.mk (stripped.take 100) ++ ".."
      else String.mk stripped

lemma collapseWs_true_dropWhile (cs : List Char) :
    collapseWs true cs = collapseWs false (cs.dropWhile pyIsSpace) := by
  induction cs with
  | nil => rfl
  | cons c cs ih =>
    by_cases h : pyIsSpace c
    · simp [collapseWs, List.dropWhile, h, ih]
    · simp [collapseWs, List.dropWhile, h]

lemma specCollapseRuns_eq_collapseWs (l : List Char) :
    specCollapseRuns l = collapseWs false l := by
  induction l using specCollapseRuns.induct with
  | case1 => simp [specCollapseRuns, collapseWs]
  | case2 c cs h ih =>
    simp [specCollapseRuns, collapseWs, h, ih, collapseWs_true_dropWhile]
  | case3 c cs h ih =>
    simp [specCollapseRuns, collapseWs, h, ih]

lemma stripIllegal_eq_filter_not_mem (l : List Char) :
    stripIllegal l = l.filter (fun c => decide (c ∉ illegalChars)) := by
  unfold stripIllegal
  refine List.filter_congr (fun c _ => ?_)
  simp [List.contains, List.elem_eq_mem]

lemma string_mk_append (a b : List Char) :
    String.mk a ++ String.mk b = String.mk (a ++ b) := rfl

/-- C5 (confirmed). Filename sanitization: for every input string,
`sanitize_filename` replaces each run of whitespace with a single underscore,
strips every occurrence of the characters `\\ / * ? : " < > |`, then, if the
result exceeds 100 characters, truncates it to its first 100 characters
followed by the two-character ellipsis marker `..`; an empty or absent input
yields the fixed placeholder name. Stated as a refinement: the function
embedded from src/app.py lines 20-27 agrees with `sanitizeSpec`, the direct
rendering of the spec's filename rule, on every input. -/
theorem sanitize_filename_matches_spec (name : Option String) :
    sanitize_filename name = sanitizeSpec name := by
  cases name with
  | none => rfl
  | some s =>
    by_cases h : s = ""
    · subst h; rfl
    · have hne : s.isEmpty = false := by
        rw [Bool.eq_false_iff]
        intro hc
        exact h ((String.isEmpty_iff s).mp hc)
      simp only [sanitize_filename, sanitizeSpec, hne, Bool.false_eq_true, if_false, if_neg h,
        specCollapseRuns_eq_collapseWs, ← stripIllegal_eq_filter_not_mem, truncate100]
      by_cases hl : (stripIllegal (collapseWs false s.data)).length > 100
      · simp [hl, ← string_mk_append]
      · simp [hl]

lemma pyIsSpace_of_illegal {c : Char} (h : c ∈ illegalChars) : pyIsSpace c = false := by
  simp only [illegalChars, List.mem_cons, List.not_mem_nil, or_false] at h
  rcases h with rfl | rfl | rfl | rfl | rfl | rfl | rfl | rfl | rfl <;> rfl

lemma collapseWs_of_no_ws (l : List Char) (h : ∀ c ∈ l, pyIsSpace c = false) :
    collapseWs false l = l := by
  induction l with
  | nil => rfl
  | cons c cs ih =>
    have hc := h c (by simp)
    simp [collapseWs, hc, ih (fun d hd => h d (by simp [hd]))]

/-- C10 (confirmed). Implicit sanitization edge case: for every non-empty
input consisting solely of characters from the stripped set
`\\ / * ? : " < > |`, `sanitize_filename` returns the empty string, not the
placeholder; the `"untitled_video"` fallback branch fires only when the input
itself is empty or absent before sanitization. -/
theorem sanitize_filename_all_illegal (s : String) (h1 : s ≠ "")
    (h2 : ∀ c ∈ s.data, c ∈ illegalChars) :
    sanitize_filename (some s) = "" := by
  have hne : s.isEmpty = false := by
    rw [Bool.eq_false_iff]
    intro hc
    exact h1 ((String.isEmpty_iff s).mp hc)
  have hcollapse : collapseWs false s.data = s.data :=
    collapseWs_of_no_ws _ (fun c hc => pyIsSpace_of_illegal (h2 c hc))
  have hstrip : stripIllegal s.data = [] := by
    unfold stripIllegal
    rw [List.filter_eq_nil_iff]
    intro a ha
    simp [List.contains, List.elem_eq_mem, h2 a ha]
  simp [sanitize_filename, hne, hcollapse, hstrip, truncate100]

theorem sanitize_filename_all_illegal_witness :
    (("???" : String) ≠ "" ∧ ∀ c ∈ ("???" : String).data, c ∈ illegalChars) ∧
      sanitize_filename (some "???") = "" :=
  ⟨by decide, sanitize_filename_all_illegal "???" (by decide) (by decide)⟩

/-! ## C6: idempotent memoized fetch -/

lemma cacheLookup_append_self (cache : Cache) (v : Video) (r : DlResult)
    (h : cacheLookup cache v = none) :
    cacheLookup (cache ++ [(v, r)]) v = some r := by
  induction cache with
  | nil => simp [cacheLookup, List.find?]
  | cons p ps ih =>
    simp only [cacheLookup, List.cons_append, List.find?] at h ⊢
    cases hp : (p.1 == v) with
    | true => simp [hp] at h
    | false =>
      simp only [hp] at h ⊢
      exact ih h

/-- C6 (confirmed). Idempotent memoized fetch: for every descriptor `v`,
calling `get_cached_download_data` twice within the same cache generation
(the second call is run on the cache state the first call returned, with no
intervening clear) performs at most one invocation of the underlying
`robust_download_to_memory` in total, and both calls return the same result. -/
theorem get_cached_download_data_idempotent
    (dl : Video → Option (List Nat × String)) (cache : Cache) (v : Video) :
    (get_cached_download_data dl cache v).1 =
      (get_cached_download_data dl (get_cached_download_data dl cache v).2.1 v).1 ∧
    (get_cached_download_data dl cache v).2.2 +
      (get_cached_download_data dl (get_cached_download_data dl cache v).2.1 v).2.2 ≤ 1 := by
  cases h : cacheLookup cache v with
  | some r => simp [get_cached_download_data, h]
  | none =>
    have h2 := cacheLookup_append_self cache v (robust_download_to_memory dl v) h
    simp [get_cached_download_data, h, h2]

/-! ## C9: empty selection leaves the session untouched -/

/-- C9 (confirmed). Implicit atomicity on empty input: calling
`prepare_zip` with an empty selection returns at the `if not selected_videos`
guard and changes no session state — the stored archive bytes, the recorded
identity set, the archive filename and the Failure Ledger are all left
exactly as they were. -/
theorem prepare_zip_empty_selection_noop
    (dl : Video → Option (List Nat × String)) (user_id : String) (s : AppState) :
    prepare_zip dl [] user_id s = s := rfl

/-! ## C7: frame property of selection changes -/

/-- C7 (confirmed). Frame property of selection changes: a single toggle
only rewrites the toggle map; select-all/deselect-all rewrites the toggle map
and invalidates exactly the aggregate artifact state (`zip_bytes` becomes
`None`, `zipped_selection_ids` becomes empty) while leaving the per-item
cache, the video list and the Failure Ledger unchanged; the rerun validity
check likewise touches at most the two artifact fields; and the per-item
cache is cleared only by the explicit cache-clear action, which touches
nothing else. -/
theorem selection_change_frame (s : AppState) (c : String) (b : Bool) :
    ((toggleVideo c s).cache = s.cache ∧
     (toggleVideo c s).video_list = s.video_list ∧
     (toggleVideo c s).failed_videos = s.failed_videos ∧
     (toggleVideo c s).zip_bytes = s.zip_bytes ∧
     (toggleVideo c s).zipped_selection_ids = s.zipped_selection_ids) ∧
    ((toggle_all_selection b s).cache = s.cache ∧
     (toggle_all_selection b s).video_list = s.video_list ∧
     (toggle_all_selection b s).failed_videos = s.failed_videos ∧
     (toggle_all_selection b s).zip_bytes = none ∧
     (toggle_all_selection b s).zipped_selection_ids = []) ∧
    ((run_app_1_check s).cache = s.cache ∧
     (run_app_1_check s).video_list = s.video_list ∧
     (run_app_1_check s).failed_videos = s.failed_videos ∧
     (run_app_1_check s).toggles = s.toggles) ∧
    ((clear_download_cache s).cache = [] ∧
     (clear_download_cache s).video_list = s.video_list ∧
     (clear_download_cache s).toggles = s.toggles ∧
     (clear_download_cache s).zip_bytes = s.zip_bytes ∧
     (clear_download_cache s).zipped_selection_ids = s.zipped_selection_ids ∧
     (clear_download_cache s).failed_videos = s.failed_videos) := by
  refine ⟨⟨rfl, rfl, rfl, rfl, rfl⟩, ⟨rfl, rfl, rfl, rfl, rfl⟩, ?_,
    ⟨rfl, rfl, rfl, rfl, rfl, rfl⟩⟩
  unfold run_app_1_check invalidate_zip
  split
  · exact ⟨rfl, rfl, rfl, rfl⟩
  · split
    · exact ⟨rfl, rfl, rfl, rfl⟩
    · exact ⟨rfl, rfl, rfl, rfl⟩

/-! ## Characterizing one `prepare_zip` run -/

lemma zipBufferTell_pos (es : List ZipEntry) : 0 < zipBufferTell es := by
  unfold zipBufferTell
  omega

/-- Videos of one assembly run whose download came back falsy (the ones the
loop appends to `failed_videos_this_run`). -/
def runFailed (dl : Video → Option (List Nat × String)) (selected : List Video) : List Video :=
  selected.filter (fun v => !dl_success (robust_download_to_memory dl v))

/-- Videos of one assembly run whose download came back truthy. -/
def runSucceeded (dl : Video → Option (List Nat × String)) (selected : List Video) : List Video :=
  selected.filter (fun v => dl_success (robust_download_to_memory dl v))

/-- What one non-empty `prepare_zip` run does to the session, in closed form:
the ledger is replaced wholesale, the `tell() > 0` test always passes (the
closed zip stream holds at least its 22-byte end record), so the artifact is
always published with the entries written, the ids of the videos not in this
run's failure list, and the archive name. -/
lemma prepare_zip_eq (dl : Video → Option (List Nat × String))
    (selected : List Video) (user_id : String) (s : AppState)
    (h : selected.isEmpty = false) :
    prepare_zip dl selected user_id s =
      { s with
        failed_videos := runFailed dl selected
        zip_bytes := some (selected.filterMap (zipEntryOf dl))
        zipped_selection_ids :=
          (selected.filter (fun v => decide (v ∉ runFailed dl selected))).map (fun v => v.id)
        zip_filename := some ("tiktok_download_" ++ user_id ++ ".zip") } := by
  unfold prepare_zip runFailed
  rw [h]
  simp only [Bool.false_eq_true, if_false]
  rw [if_pos (zipBufferTell_pos _)]

lemma zipped_ids_filter_eq (dl : Video → Option (List Nat × String)) (selected : List Video) :
    selected.filter (fun v => decide (v ∉ runFailed dl selected)) = runSucceeded dl selected := by
  unfold runFailed runSucceeded
  refine List.filter_congr (fun v hv => ?_)
  cases h : dl_success (robust_download_to_memory dl v) with
  | true => simp [List.mem_filter, h, hv]
  | false => simp [List.mem_filter, h, hv]

lemma zipEntryOf_isSome (dl : Video → Option (List Nat × String)) (v : Video) :
    (zipEntryOf dl v).isSome = dl_success (robust_download_to_memory dl v) := by
  unfold zipEntryOf dl_success
  cases robust_download_to_memory dl v with
  | none => rfl
  | some bf =>
    obtain ⟨b, f⟩ := bf
    by_cases h : (!b.isEmpty && !f.isEmpty) = true
    · simp [h]
    · simp only [Bool.not_eq_true] at h
      simp [h]

lemma length_filterMap_zipEntryOf (dl : Video → Option (List Nat × String))
    (selected : List Video) :
    (selected.filterMap (zipEntryOf dl)).length = (runSucceeded dl selected).length := by
  unfold runSucceeded
  induction selected with
  | nil => rfl
  | cons v vs ih =>
    cases hv : zipEntryOf dl v with
    | none =>
      have hp : dl_success (robust_download_to_memory dl v) = false := by
        rw [← zipEntryOf_isSome, hv]
        rfl
      simp [List.filterMap_cons, hv, List.filter_cons, hp, ih]
    | some e =>
      have hp : dl_success (robust_download_to_memory dl v) = true := by
        rw [← zipEntryOf_isSome, hv]
        rfl
      simp [List.filterMap_cons, hv, List.filter_cons, hp, ih]

lemma length_runSucceeded_add_runFailed (dl : Video → Option (List Nat × String))
    (selected : List Video) :
    (runSucceeded dl selected).length + (runFailed dl selected).length = selected.length := by
  unfold runSucceeded runFailed
  induction selected with
  | nil => rfl
  | cons v vs ih =>
    cases h : dl_success (robust_download_to_memory dl v) with
    | true => simp [List.filter_cons, h]; omega
    | false => simp [List.filter_cons, h]; omega

/-- C3 (confirmed). Partial-failure completeness: a non-empty assembly
run processes every selected video (each one ends up counted either as an
archive entry or in the failure list, with no early termination), the
published archive holds exactly one entry per successful download (so `N − K`
entries for `K` failures out of `N`), the Failure Ledger is replaced
wholesale by exactly the failing videos of this run, and — for a selection
with distinct ids — the archived ids and failed ids partition the selection's
ids with no overlap and no omission. -/
theorem prepare_zip_partial_failure_completeness
    (dl : Video → Option (List Nat × String)) (selected : List Video)
    (user_id : String) (s : AppState)
    (hne : selected ≠ [])
    (hnd : (selected.map (fun v => v.id)).Nodup) :
    (prepare_zip dl selected user_id s).failed_videos = runFailed dl selected ∧
    (runSucceeded dl selected).length + (runFailed dl selected).length = selected.length ∧
    ((prepare_zip dl selected user_id s).zip_bytes =
        some (selected.filterMap (zipEntryOf dl)) ∧
      (selected.filterMap (zipEntryOf dl)).length = (runSucceeded dl selected).length) ∧
    ((runSucceeded dl selected).map (fun v => v.id)).toFinset ∪
        ((runFailed dl selected).map (fun v => v.id)).toFinset =
      (selected.map (fun v => v.id)).toFinset ∧
    Disjoint ((runSucceeded dl selected).map (fun v => v.id)).toFinset
      ((runFailed dl selected).map (fun v => v.id)).toFinset := by
  have hie : selected.isEmpty = false := by
    cases selected with
    | nil => exact absurd rfl hne
    | cons v vs => rfl
  rw [prepare_zip_eq dl selected user_id s hie]
  refine ⟨rfl, length_runSucceeded_add_runFailed dl selected,
    ⟨rfl, length_filterMap_zipEntryOf dl selected⟩, ?_, ?_⟩
  · ext x
    simp only [Finset.mem_union, List.mem_toFinset, List.mem_map]
    constructor
    · rintro (⟨v, hv, rfl⟩ | ⟨v, hv, rfl⟩)
      · exact ⟨v, (List.mem_filter.mp hv).1, rfl⟩
      · exact ⟨v, (List.mem_filter.mp hv).1, rfl⟩
    · rintro ⟨v, hv, rfl⟩
      cases h : dl_success (robust_download_to_memory dl v) with
      | true =>
        exact Or.inl ⟨v, List.mem_filter.mpr ⟨hv, h⟩, rfl⟩
      | false =>
        refine Or.inr ⟨v, List.mem_filter.mpr ⟨hv, ?_⟩, rfl⟩
        simp [h]
  · rw [Finset.disjoint_left]
    rintro x hx1 hx2
    simp only [runSucceeded, runFailed, List.mem_toFinset, List.mem_map] at hx1 hx2
    obtain ⟨v1, hv1, hx1⟩ := hx1
    obtain ⟨v2, hv2, hx2⟩ := hx2
    obtain ⟨hv1m, hp1⟩ := List.mem_filter.mp hv1
    obtain ⟨hv2m, hp2⟩ := List.mem_filter.mp hv2
    have hv12 : v1 = v2 :=
      List.inj_on_of_nodup_map hnd hv1m hv2m (by rw [hx1, hx2])
    subst hv12
    rw [hp1] at hp2
    simp at hp2

lemma zipEntryOf_name (dl : Video → Option (List Nat × String)) (v : Video) (e : ZipEntry)
    (h : zipEntryOf dl v = some e) :
    e.name = sanitize_filename (some v.uploader) ++ "_" ++
      sanitize_filename (some v.title) ++ ".mp4" := by
  unfold zipEntryOf robust_download_to_memory at h
  cases hd : dl v with
  | none =>
    rw [hd] at h
    exact absurd h (by simp)
  | some pe =>
    obtain ⟨payload, ext⟩ := pe
    rw [hd] at h
    simp only at h
    split at h
    · injection h with h
      rw [← h]
    · exact absurd h (by simp)

/-- C8 counterexample. When the download environment leaves a file whose
extension is `"webm"` (the final `/best` format fallback need not be mp4),
the produced entry name still ends in the hard-coded `".mp4"` of line 105 —
it is not `<sanitized-owner>_<sanitized-title>.<ext>` for the item's actual
file extension `"webm"`, contradicting the claim as stated. -/
theorem entry_name_ignores_actual_extension :
    robust_download_to_memory (fun _ => some ([1], "webm")) vA
      = some ([1], "Jane_Doe_Title_A.mp4") ∧
    ("Jane_Doe_Title_A.mp4" : String) ≠
      sanitize_filename (some vA.uploader) ++ "_" ++
        sanitize_filename (some vA.title) ++ "." ++ "webm" :=
  ⟨by decide, by decide⟩

/-- C8 amended (corrected). Every entry of a published archive is named
`<sanitized-owner>_<sanitized-title>.mp4` for some selected video — the
extension is the fixed string `mp4`, not the extension of the file the
fetcher actually produced — and the archive as a whole is named
`tiktok_download_<owner identifier>.zip`. -/
theorem archive_entry_naming
    (dl : Video → Option (List Nat × String)) (selected : List Video)
    (user_id : String) (s : AppState) (hne : selected ≠ []) :
    (∀ es, (prepare_zip dl selected user_id s).zip_bytes = some es →
      ∀ e ∈ es, ∃ v, v ∈ selected ∧
        e.name = sanitize_filename (some v.uploader) ++ "_" ++
          sanitize_filename (some v.title) ++ ".mp4") ∧
    (prepare_zip dl selected user_id s).zip_filename =
      some ("tiktok_download_" ++ user_id ++ ".zip") := by
  have hie : selected.isEmpty = false := by
    cases selected with
    | nil => exact absurd rfl hne
    | cons v vs => rfl
  rw [prepare_zip_eq dl selected user_id s hie]
  refine ⟨?_, rfl⟩
  intro es hes e he
  rw [Option.some_inj] at hes
  rw [← hes] at he
  obtain ⟨v, hv, hve⟩ := List.mem_filterMap.mp he
  exact ⟨v, hv, zipEntryOf_name dl v e hve⟩

theorem archive_entry_naming_witness :
    (([vA, vB] : List Video) ≠ []) ∧
    ((∀ es, (prepare_zip dlNoB [vA, vB] "u" initialize_session_state).zip_bytes = some es →
      ∀ e ∈ es, ∃ v, v ∈ ([vA, vB] : List Video) ∧
        e.name = sanitize_filename (some v.uploader) ++ "_" ++
          sanitize_filename (some v.title) ++ ".mp4") ∧
    (prepare_zip dlNoB [vA, vB] "u" initialize_session_state).zip_filename =
      some ("tiktok_download_" ++ "u" ++ ".zip")) :=
  ⟨by decide, archive_entry_naming dlNoB [vA, vB] "u" initialize_session_state (by decide)⟩

/-! ## C1: artifact validity across reruns -/

/-- Session state holding videos `A, B` with both toggled on and no artifact. -/
def sSel : AppState :=
  { initialize_session_state with
    video_list := [vA, vB]
    toggles := fun x => x == "a" || x == "b" }

lemma run_app_1_check_of_divergent (s : AppState)
    (hdt : s.download_triggered = false)
    (hz : zipTruthy s.zip_bytes = true) (hne : selectedIds s ≠ recordedIds s) :
    run_app_1_check s = invalidate_zip s := by
  unfold run_app_1_check
  rw [hdt]
  simp only [Bool.false_eq_true, if_false]
  rw [if_pos ⟨hz, hne⟩]

lemma run_app_1_check_of_agree (s : AppState)
    (h : ¬(zipTruthy s.zip_bytes = true ∧ selectedIds s ≠ recordedIds s)) :
    run_app_1_check s = s := by
  unfold run_app_1_check
  cases hdt : s.download_triggered with
  | true => simp
  | false =>
    simp only [Bool.false_eq_true, if_false]
    rw [if_neg h]

lemma selectedIds_toggleVideo_not_selected (s : AppState) (c : String)
    (hc : c ∈ s.video_list.map (fun v => v.id)) (hcs : c ∉ selectedIds s) :
    selectedIds (toggleVideo c s) = insert c (selectedIds s) := by
  have htc : s.toggles c = false := by
    by_contra h
    rw [Bool.not_eq_false] at h
    obtain ⟨v, hv, hvid⟩ := List.mem_map.mp hc
    refine hcs (List.mem_toFinset.mpr (List.mem_map.mpr
      ⟨v, List.mem_filter.mpr ⟨hv, ?_⟩, hvid⟩))
    rw [hvid, h]
  ext x
  simp only [selectedIds, selectedVideos, toggleVideo, List.mem_toFinset, List.mem_map,
    List.mem_filter, Finset.mem_insert]
  constructor
  · rintro ⟨v, ⟨hv, ht⟩, rfl⟩
    by_cases hvc : v.id = c
    · exact Or.inl hvc
    · right
      refine ⟨v, ⟨hv, ?_⟩, rfl⟩
      simpa [hvc] using ht
  · rintro (rfl | ⟨v, ⟨hv, ht⟩, rfl⟩)
    · obtain ⟨v, hv, hvid⟩ := List.mem_map.mp hc
      refine ⟨v, ⟨hv, ?_⟩, hvid⟩
      simp [hvid, htc]
    · have hvc : v.id ≠ c := by
        intro h
        rw [h, htc] at ht
        exact Bool.noConfusion ht
      exact ⟨v, ⟨hv, by simp [hvc, ht]⟩, rfl⟩

/-- C1 counterexample. In the very rerun that performs a partial-failure
assembly, the archive is offered for download (the download button renders
right after `prepare_zip` returns) even though the current Selection Set
`{a, b}` is not set-equal to the recorded identity set `{a}` (only the
successful ids are recorded): the claimed invariant fails at this offering
point, as stated over every point where the archive is offered. -/
theorem artifact_offered_while_divergent :
    zipOffered (run_app_1_rerun dlNoB true "u" sSel) = true ∧
    selectedIds (run_app_1_rerun dlNoB true "u" sSel) ≠
      recordedIds (run_app_1_rerun dlNoB true "u" sSel) :=
  ⟨by decide, by decide⟩

/-- C1 amended (corrected). In a rerun that does not itself run assembly,
the artifact-validity invariant holds at the offering point: after the check
at the top of `run_app_1`, the archive is offered iff it was present and the
Selection Set is set-equal to the recorded identity set; any divergence while
an artifact is present discards it (`zip_bytes` becomes `None` and the
recorded id list becomes empty); and after a toggle-then-untoggle round trip
the artifact stays discarded rather than becoming valid again. (In the rerun
that performed a partial-failure assembly itself, the artifact is offered
despite diverging — see the counterexample — and is discarded from the next
rerun on.) -/
theorem artifact_validity_check (s : AppState) (c : String)
    (hdt : s.download_triggered = false) :
    (zipOffered (run_app_1_check s) = true ↔
      (zipOffered s = true ∧ selectedIds s = recordedIds s)) ∧
    (zipOffered s = true → selectedIds s ≠ recordedIds s →
      (run_app_1_check s).zip_bytes = none ∧
      (run_app_1_check s).zipped_selection_ids = []) ∧
    (zipOffered s = true → selectedIds s = recordedIds s →
      c ∈ s.video_list.map (fun v => v.id) → c ∉ selectedIds s →
      (run_app_1_check (toggleVideo c (run_app_1_check (toggleVideo c s)))).zip_bytes = none ∧
      (run_app_1_check (toggleVideo c (run_app_1_check (toggleVideo c s)))).zipped_selection_ids
        = []) := by
  refine ⟨?_, ?_, ?_⟩
  · by_cases hcond : zipTruthy s.zip_bytes = true ∧ selectedIds s ≠ recordedIds s
    · rw [run_app_1_check_of_divergent s hdt hcond.1 hcond.2]
      constructor
      · intro h
        exact absurd h (by simp [zipOffered, zipTruthy, invalidate_zip])
      · rintro ⟨hoff, heq⟩
        exact absurd heq hcond.2
    · rw [run_app_1_check_of_agree s hcond]
      constructor
      · intro hoff
        refine ⟨hoff, ?_⟩
        by_contra hne
        exact hcond ⟨hoff, hne⟩
      · rintro ⟨hoff, _⟩
        exact hoff
  · intro hoff hne
    rw [run_app_1_check_of_divergent s hdt hoff hne]
    exact ⟨rfl, rfl⟩
  · intro hoff heq hc hcs
    have h1 : run_app_1_check (toggleVideo c s) = invalidate_zip (toggleVideo c s) := by
      apply run_app_1_check_of_divergent
      · exact hdt
      · exact hoff
      · rw [selectedIds_toggleVideo_not_selected s c hc hcs]
        have hrec : recordedIds (toggleVideo c s) = recordedIds s := rfl
        rw [hrec, ← heq]
        intro h
        exact hcs (h ▸ Finset.mem_insert_self c (selectedIds s))
    rw [h1]
    have h2 : run_app_1_check (toggleVideo c (invalidate_zip (toggleVideo c s))) =
        toggleVideo c (invalidate_zip (toggleVideo c s)) := by
      apply run_app_1_check_of_agree
      rintro ⟨hz, _⟩
      exact absurd hz (by simp [zipTruthy, toggleVideo, invalidate_zip])
    rw [h2]
    exact ⟨rfl, rfl⟩

theorem artifact_validity_check_witness :
    sAB.download_triggered = false ∧
    ((zipOffered (run_app_1_check sAB) = true ↔
      (zipOffered sAB = true ∧ selectedIds sAB = recordedIds sAB)) ∧
    (zipOffered sAB = true → selectedIds sAB ≠ recordedIds sAB →
      (run_app_1_check sAB).zip_bytes = none ∧
      (run_app_1_check sAB).zipped_selection_ids = []) ∧
    (zipOffered sAB = true → selectedIds sAB = recordedIds sAB →
      "c" ∈ sAB.video_list.map (fun v => v.id) → "c" ∉ selectedIds sAB →
      (run_app_1_check (toggleVideo "c" (run_app_1_check (toggleVideo "c" sAB)))).zip_bytes
        = none ∧
      (run_app_1_check
          (toggleVideo "c" (run_app_1_check (toggleVideo "c" sAB)))).zipped_selection_ids
        = [])) :=
  ⟨rfl, artifact_validity_check sAB "c" rfl⟩

/-- C2 counterexample. With selection `[A, B]` where `A` downloads and
`B` fails, `prepare_zip` publishes an artifact whose recorded identity set is
`{a}` — the successful ids only (line 232: `successful_ids`) — which is not
the set `{a, b}` of ids of all descriptors attempted, contradicting the claim
as stated. -/
theorem zipped_ids_not_attempted_counterexample :
    (prepare_zip dlNoB [vA, vB] "u" initialize_session_state).zip_bytes.isSome = true ∧
    (prepare_zip dlNoB [vA, vB] "u" initialize_session_state).zipped_selection_ids.toFinset ≠
      (([vA, vB] : List Video).map (fun v => v.id)).toFinset :=
  ⟨by decide, by decide⟩

/-- C2 amended (corrected). For every non-empty selection, the recorded
identity list stored with the Archive Artifact is the list of ids of exactly
the descriptors whose fetch *succeeded* in that run (the attempted selection
minus this run's failures), not of all descriptors attempted. -/
theorem prepare_zip_records_successful_ids
    (dl : Video → Option (List Nat × String)) (selected : List Video)
    (user_id : String) (s : AppState) (hne : selected ≠ []) :
    (prepare_zip dl selected user_id s).zipped_selection_ids =
      (runSucceeded dl selected).map (fun v => v.id) := by
  have hie : selected.isEmpty = false := by
    cases selected with
    | nil => exact absurd rfl hne
    | cons v vs => rfl
  rw [prepare_zip_eq dl selected user_id s hie]
  simp only
  rw [zipped_ids_filter_eq]

theorem prepare_zip_records_successful_ids_witness :
    (([vA, vB] : List Video) ≠ []) ∧
    (prepare_zip dlNoB [vA, vB] "u" initialize_session_state).zipped_selection_ids =
      (runSucceeded dlNoB [vA, vB]).map (fun v => v.id) :=
  ⟨by decide,
    prepare_zip_records_successful_ids dlNoB [vA, vB] "u" initialize_session_state (by decide)⟩

/-- C4 (code bug). An all-failed selection is claimed (and, per the dead
`else: invalidate_zip()` branch at line 236, intended) to yield no artifact,
but `zip_buffer.tell()` is 22 even when no entry was written — CPython's
`ZipFile` in mode `"a"` on a fresh stream always writes the 22-byte
end-of-central-directory record on close — so `tell() > 0` holds, and the
code publishes an *empty* archive artifact (offered for download) alongside
the full Failure Ledger. This theorem evaluates the code at the failing
input: one selected video whose download fails. -/
theorem prepare_zip_all_failed_still_publishes :
    (prepare_zip dlFail [vA] "u" initialize_session_state).failed_videos = [vA] ∧
    (prepare_zip dlFail [vA] "u" initialize_session_state).zip_bytes = some [] ∧
    (prepare_zip dlFail [vA] "u" initialize_session_state).zip_bytes ≠ none ∧
    zipOffered (prepare_zip dlFail [vA] "u" initialize_session_state) = true :=
  ⟨by decide, by decide, by decide, by decide⟩

theorem prepare_zip_partial_failure_completeness_witness :
    (([vA, vB] : List Video) ≠ [] ∧ (([vA, vB].map (fun v => v.id)).Nodup)) ∧
    ((prepare_zip dlNoB [vA, vB] "u" initialize_session_state).failed_videos
        = runFailed dlNoB [vA, vB] ∧
      (runSucceeded dlNoB [vA, vB]).length + (runFailed dlNoB [vA, vB]).length
        = ([vA, vB] : List Video).length ∧
      ((prepare_zip dlNoB [vA, vB] "u" initialize_session_state).zip_bytes
          = some ([vA, vB].filterMap (zipEntryOf dlNoB)) ∧
        ([vA, vB].filterMap (zipEntryOf dlNoB)).length
          = (runSucceeded dlNoB [vA, vB]).length) ∧
      ((runSucceeded dlNoB [vA, vB]).map (fun v => v.id)).toFinset ∪
          ((runFailed dlNoB [vA, vB]).map (fun v => v.id)).toFinset
        = ([vA, vB].map (fun v => v.id)).toFinset ∧
      Disjoint ((runSucceeded dlNoB [vA, vB]).map (fun v => v.id)).toFinset
        ((runFailed dlNoB [vA, vB]).map (fun v => v.id)).toFinset) :=
  ⟨⟨by decide, by decide⟩,
    prepare_zip_partial_failure_completeness dlNoB [vA, vB] "u" initialize_session_state
      (by decide) (by decide)⟩
